import Mathlib

/-!
Shallow embedding of the blackjack terminal game
(src/card.py, src/deck.py, src/game.py, src/blackjack.py).

Cards are strings `f"{rank}{suit}"` in the source; here a card is a pair of a
rank and a suit (the source computes `card[:-1]`, the rank, and never splits
further).  Python ints become `Nat`, chip/bet floats become exact rationals
`ℚ`, Python dicts holding a player's round state become the `Player`
structure, and the mutated shoe list is passed and returned explicitly.
Randomness (the shuffle and the cut depth drawn in `create_deck`) is passed
in as parameters: a `shuffle` function on lists and a `cut_depth` natural.
-/

namespace Blackjack

/-- The thirteen ranks of RANKS in src/deck.py. -/
inductive Rank where
  | ace | two | three | four | five | six | seven | eight | nine | ten
  | jack | queen | king
deriving DecidableEq, Fintype

/-- The four suits of SUITS in src/deck.py. -/
inductive Suit where
  | spades | hearts | diamonds | clubs
deriving DecidableEq, Fintype

/-- A card string `f"{rank}{suit}"`; `card[:-1]` is the rank. -/
structure Card where
  rank : Rank
  suit : Suit
deriving DecidableEq, Fintype

/-- src/card.py `get_card_value`: J/Q/K → 10, ace → 11 unless that busts the
running total, numeric ranks → their integer value. -/
def get_card_value (card : Card) (current_hand_value : ℕ) : ℕ :=
  match card.rank with
  | .king | .queen | .jack => 10
  | .ace => if current_hand_value + 11 ≤ 21 then 11 else 1
  | .two => 2
  | .three => 3
  | .four => 4
  | .five => 5
  | .six => 6
  | .seven => 7
  | .eight => 8
  | .nine => 9
  | .ten => 10

/-- First loop of src/game.py `get_hand_value`: running (value, aces) pair —
non-ace cards are added to the value, aces are counted. -/
def first_pass (hand : List Card) : ℕ × ℕ :=
  hand.foldl
    (fun va card =>
      if card.rank = Rank.ace then (va.1, va.2 + 1)
      else (va.1 + get_card_value card va.1, va.2))
    (0, 0)

/-- Second loop of src/game.py `get_hand_value`: each ace adds 11 if that
keeps the total ≤ 21, else 1. -/
def add_aces (value : ℕ) : ℕ → ℕ
  | 0 => value
  | aces + 1 => add_aces (if value + 11 ≤ 21 then value + 11 else value + 1) aces

/-- src/game.py `get_hand_value`. -/
def get_hand_value (hand : List Card) : ℕ :=
  let va := first_pass hand
  add_aces va.1 va.2

/-- src/deck.py `SUITS`. -/
def SUITS : List Suit := [.spades, .hearts, .diamonds, .clubs]

/-- src/deck.py `RANKS`. -/
def RANKS : List Rank :=
  [.ace, .two, .three, .four, .five, .six, .seven, .eight, .nine, .ten,
   .jack, .queen, .king]

/-- The list comprehension in src/deck.py `create_deck` before shuffling:
`[f"{rank}{suit}" for _ in range(num_decks) for suit in SUITS for rank in RANKS]`. -/
def unshuffled_shoe (num_decks : ℕ) : List Card :=
  (List.range num_decks).flatMap fun _ =>
    SUITS.flatMap fun suit => RANKS.map fun rank => ⟨rank, suit⟩

/-- src/deck.py `create_deck`.  The random generator is abstracted: `shuffle`
stands for `rnd.shuffle` (theorems assume it permutes its input) and
`cut_depth` for the sampled `int(rnd.uniform(low, high) * len(deck))`; the
clamp `max(1, min(len(deck) - 1, ...))` and the rotation cut
`deck[cut_index:] + deck[:cut_index]` are kept as in the source. -/
def create_deck (num_decks : ℕ) (shuffle : List Card → List Card)
    (cut_depth : ℕ) : List Card :=
  let deck := shuffle (unshuffled_shoe num_decks)
  let depth_from_bottom := max 1 (min (deck.length - 1) cut_depth)
  let cut_index := deck.length - depth_from_bottom
  deck.drop cut_index ++ deck.take cut_index

/-- src/deck.py `draw_card`: `deck.pop()` removes and returns the LAST card;
popping an empty list raises IndexError, modelled as `none`. -/
def draw_card (deck : List Card) : Option (Card × List Card) :=
  match deck.getLast? with
  | none => none
  | some card => some (card, deck.dropLast)

/-- src/game.py `ensure_deck_cards`: if the shoe holds fewer than `minimum`
cards it is cleared and refilled with `create_deck()` (default 8 decks);
returns the new shoe and whether a reshuffle happened. -/
def ensure_deck_cards (shuffle : List Card → List Card) (cut_depth : ℕ)
    (deck : List Card) (minimum : ℕ) : List Card × Bool :=
  if deck.length < minimum then (create_deck 8 shuffle cut_depth, true)
  else (deck, false)

/-- src/game.py `draw_from_shoe`: replenish if needed (threshold 60), then
pop one card. -/
def draw_from_shoe (shuffle : List Card → List Card) (cut_depth : ℕ)
    (deck : List Card) : Option (Card × List Card × Bool) :=
  let er := ensure_deck_cards shuffle cut_depth deck 60
  match draw_card er.1 with
  | none => none
  | some (card, rest) => some (card, rest, er.2)

/-- The `status` strings stored in the player/dealer dicts by
src/game.py. -/
inductive Status where
  | blackjack | bust | hit | stand | double | push | win | winDouble | lose
deriving DecidableEq

/-- The per-participant dict of src/game.py / src/blackjack.py: `name`,
`chips`, `bet`, `hand`, `cardvalue`, `doubled`, optional `status` (the key is
popped at the start of a round).  Chips and bets are Python floats, modelled
as exact rationals. -/
structure Player where
  name : String
  chips : ℚ
  bet : ℚ
  hand : List Card
  cardvalue : ℕ
  doubled : Bool
  status : Option Status
deriving DecidableEq

/-- Python `str.lower()` on the action strings read from the prompt,
applied characterwise. -/
def str_lower (s : String) : String := ⟨s.data.map Char.toLower⟩

/-- src/game.py `play_player_turn`.  The loop is driven by the strings the
player types at `input_slowly`, passed here as the `actions` list; running
out of actions where the source would block on input yields `none`.  Each
iteration first classifies an exact 21 as `blackjack` and a value over 21 as
`bust` (both terminal), then reads an action, resets `doubled`, and
dispatches on `action.lower()`: hit draws and loops, double (when
`bet <= chips`) draws once, moves the bet, and terminates with status
`double`, an uncovered double or an unrecognized action re-prompts, stand
terminates. -/
def play_player_turn (shuffle : List Card → List Card) (cut_depth : ℕ) :
    Player → List Card → List String → Option (Player × List Card)
  | player, deck, actions =>
    if player.cardvalue = 21 then
      some ({player with status := some .blackjack}, deck)
    else if 21 < player.cardvalue then
      some ({player with status := some .bust}, deck)
    else
      match actions with
      | [] => none
      | action :: rest =>
        let player := {player with doubled := false}
        if str_lower action = "h" then
          match draw_from_shoe shuffle cut_depth deck with
          | none => none
          | some (card, deck2, _) =>
            let hand := player.hand ++ [card]
            play_player_turn shuffle cut_depth
              {player with hand := hand, cardvalue := get_hand_value hand,
                           status := some .hit} deck2 rest
        else if str_lower action = "d" then
          if player.bet ≤ player.chips then
            match draw_from_shoe shuffle cut_depth deck with
            | none => none
            | some (card, deck2, _) =>
              let hand := player.hand ++ [card]
              some ({player with hand := hand,
                                 cardvalue := get_hand_value hand,
                                 chips := player.chips - player.bet,
                                 bet := player.bet * 2,
                                 doubled := true,
                                 status := some .double}, deck2)
          else
            play_player_turn shuffle cut_depth player deck rest
        else if str_lower action = "s" then
          some ({player with status := some .stand}, deck)
        else
          play_player_turn shuffle cut_depth player deck rest

/-- src/game.py `play_dealer_turn`.  The loop stands on any value in
[17, 21], busts above 21, and otherwise draws one card and loops; `fuel`
bounds the number of iterations (the source relies on hand values growing),
with exhaustion modelled as `none`. -/
def play_dealer_turn (shuffle : List Card → List Card) (cut_depth : ℕ) :
    ℕ → Player → List Card → Option (Player × List Card)
  | 0, _, _ => none
  | fuel + 1, dealer, deck =>
    if 17 ≤ dealer.cardvalue ∧ dealer.cardvalue ≤ 21 then
      some ({dealer with status := some .stand}, deck)
    else if 21 < dealer.cardvalue then
      some ({dealer with status := some .bust}, deck)
    else
      match draw_from_shoe shuffle cut_depth deck with
      | none => none
      | some (card, deck2, _) =>
        let hand := dealer.hand ++ [card]
        play_dealer_turn shuffle cut_depth fuel
          {dealer with hand := hand, cardvalue := get_hand_value hand,
                       status := some .hit} deck2

/-- src/game.py `evaluate_hand`: the if/elif chain resolving a player hand
against the dealer hand and paying out of `chips`. -/
def evaluate_hand (player : Player) (dealer_hand : Player) : Player :=
  if 21 < player.cardvalue then
    {player with status := some .bust}
  else if player.cardvalue = dealer_hand.cardvalue then
    {player with status := some .push, chips := player.chips + player.bet}
  else if player.cardvalue = 21 ∧ player.hand.length = 2 then
    {player with status := some .blackjack,
                 chips := player.chips + player.bet * 2}
  else if dealer_hand.cardvalue < player.cardvalue ∧ player.doubled then
    {player with status := some .winDouble,
                 chips := player.chips + player.bet * 2}
  else if dealer_hand.cardvalue < player.cardvalue ∨ 21 < dealer_hand.cardvalue then
    {player with status := some .win,
                 chips := player.chips + player.bet * 2}
  else if player.cardvalue < dealer_hand.cardvalue then
    {player with status := some .lose}
  else
    player

/-- The contents of `player_data.json` as `open` + `json.load` in
src/blackjack.py see them: the file is absent, or holds text that
`json.load` parses to a name → balance mapping, or holds text `json.load`
rejects. -/
inductive PlayerFile where
  | missing
  | wellFormed (ledger : List (String × ℚ))
  | malformed
deriving DecidableEq

/-- What a call to src/blackjack.py `load_player_data` does: returns a
ledger, or lets an uncaught exception escape. -/
inductive LoadResult where
  | ok (ledger : List (String × ℚ))
  | jsonDecodeError
deriving DecidableEq

/-- src/blackjack.py `load_player_data`: `json.load` on the opened file,
with `except FileNotFoundError: return { }` as the ONLY handler — a missing
file yields the empty dict, malformed contents raise `json.JSONDecodeError`,
which propagates. -/
def load_player_data : PlayerFile → LoadResult
  | .missing => .ok []
  | .wellFormed ledger => .ok ledger
  | .malformed => .jsonDecodeError

/-- src/blackjack.py `get_player_chip_balance`: the persisted balance when
the name is a key of the loaded dict, else 10000.00. -/
def get_player_chip_balance (players : List (String × ℚ))
    (player_name : String) : ℚ :=
  match players.lookup player_name with
  | some balance => balance
  | none => 10000

/-! ## Theorems -/

/-- C9: `get_hand_value` resolves multiple aces so that every ace after the
first degrades to 1 once counting it as 11 would exceed 21:
`[A, A] = 12`, `[A, A, 9] = 21`, `[A, A, A, 8] = 21`. -/
theorem hand_value_multiple_aces :
    get_hand_value [⟨.ace, .spades⟩, ⟨.ace, .hearts⟩] = 12 ∧
    get_hand_value [⟨.ace, .spades⟩, ⟨.ace, .hearts⟩, ⟨.nine, .diamonds⟩] = 21 ∧
    get_hand_value
      [⟨.ace, .spades⟩, ⟨.ace, .hearts⟩, ⟨.ace, .diamonds⟩, ⟨.eight, .clubs⟩] = 21 := by
  decide

/-- C10: `get_player_chip_balance` returns exactly 10000.00 for a name
absent from the loaded ledger, and exactly the persisted balance for a name
present in it. -/
theorem chip_balance_default (players : List (String × ℚ)) (name : String) :
    (players.lookup name = none →
       get_player_chip_balance players name = 10000) ∧
    ∀ balance : ℚ, players.lookup name = some balance →
       get_player_chip_balance players name = balance := by
  constructor
  · intro h
    simp [get_player_chip_balance, h]
  · intro balance h
    simp [get_player_chip_balance, h]

/-- Witness for C10 at a concrete one-entry ledger. -/
theorem chip_balance_default_witness :
    get_player_chip_balance [("amy", (5 : ℚ))] "bob" = 10000 ∧
    get_player_chip_balance [("amy", (5 : ℚ))] "amy" = 5 :=
  ⟨(chip_balance_default [("amy", (5 : ℚ))] "bob").1 (by decide),
   (chip_balance_default [("amy", (5 : ℚ))] "amy").2 5 (by decide)⟩

/-- C6: `load_player_data` returns the empty ledger on a missing file, but
on malformed persisted data the uncaught `json.JSONDecodeError` escapes —
the code crashes instead of treating it as an empty ledger. -/
theorem load_player_data_malformed_raises :
    load_player_data .missing = .ok [] ∧
    load_player_data .malformed = .jsonDecodeError :=
  ⟨rfl, rfl⟩

/-- C2: `evaluate_hand` checks its six rules in order, first match wins:
bust pays nothing; equal values refund the bet (a two-card-21 tie is a push,
not blackjack); a two-card 21 pays 2 × bet; a doubled win pays 2 × bet; a
win or a dealer bust pays 2 × bet; a lower value pays nothing. -/
theorem evaluate_hand_rule_order (p d : Player) :
    (21 < p.cardvalue →
       evaluate_hand p d = {p with status := some .bust}) ∧
    (p.cardvalue ≤ 21 → p.cardvalue = d.cardvalue →
       evaluate_hand p d =
         {p with status := some .push, chips := p.chips + p.bet}) ∧
    (p.cardvalue ≤ 21 → p.cardvalue ≠ d.cardvalue →
       p.cardvalue = 21 → p.hand.length = 2 →
       evaluate_hand p d =
         {p with status := some .blackjack, chips := p.chips + p.bet * 2}) ∧
    (p.cardvalue ≤ 21 → p.cardvalue ≠ d.cardvalue →
       ¬(p.cardvalue = 21 ∧ p.hand.length = 2) →
       d.cardvalue < p.cardvalue → p.doubled = true →
       evaluate_hand p d =
         {p with status := some .winDouble, chips := p.chips + p.bet * 2}) ∧
    (p.cardvalue ≤ 21 → p.cardvalue ≠ d.cardvalue →
       ¬(p.cardvalue = 21 ∧ p.hand.length = 2) →
       ¬(d.cardvalue < p.cardvalue ∧ p.doubled = true) →
       (d.cardvalue < p.cardvalue ∨ 21 < d.cardvalue) →
       evaluate_hand p d =
         {p with status := some .win, chips := p.chips + p.bet * 2}) ∧
    (p.cardvalue ≤ 21 → p.cardvalue ≠ d.cardvalue →
       ¬(p.cardvalue = 21 ∧ p.hand.length = 2) →
       ¬(d.cardvalue < p.cardvalue ∧ p.doubled = true) →
       ¬(d.cardvalue < p.cardvalue ∨ 21 < d.cardvalue) →
       p.cardvalue < d.cardvalue →
       evaluate_hand p d = {p with status := some .lose}) := by
  refine ⟨?_, ?_, ?_, ?_, ?_, ?_⟩
  · intro h1
    rw [evaluate_hand, if_pos h1]
  · intro h1 h2
    rw [evaluate_hand, if_neg (by omega), if_pos h2]
  · intro h1 h2 h3 h4
    rw [evaluate_hand, if_neg (by omega), if_neg h2, if_pos ⟨h3, h4⟩]
  · intro h1 h2 h3 h4 h5
    rw [evaluate_hand, if_neg (by omega), if_neg h2, if_neg h3, if_pos ⟨h4, h5⟩]
  · intro h1 h2 h3 h4 h5
    rw [evaluate_hand, if_neg (by omega), if_neg h2, if_neg h3, if_neg h4,
      if_pos h5]
  · intro h1 h2 h3 h4 h5 h6
    rw [evaluate_hand, if_neg (by omega), if_neg h2, if_neg h3, if_neg h4,
      if_neg h5, if_pos h6]

/-- Witness for C2: a two-card 21 against a dealer 21 resolves as push,
refunding exactly the bet. -/
theorem evaluate_hand_rule_order_witness :
    evaluate_hand
        ⟨"P", 10, 5, [⟨.ace, .spades⟩, ⟨.king, .hearts⟩], 21, false, none⟩
        ⟨"Dealer", 0, 0, [⟨.ace, .clubs⟩, ⟨.queen, .diamonds⟩], 21, false, none⟩ =
      {(⟨"P", 10, 5, [⟨.ace, .spades⟩, ⟨.king, .hearts⟩], 21, false, none⟩ : Player) with
        status := some .push, chips := 10 + 5} :=
  (evaluate_hand_rule_order
      ⟨"P", 10, 5, [⟨.ace, .spades⟩, ⟨.king, .hearts⟩], 21, false, none⟩
      ⟨"Dealer", 0, 0, [⟨.ace, .clubs⟩, ⟨.queen, .diamonds⟩], 21, false, none⟩).2.1
    (by decide) (by decide)

/-- A non-ace card's value does not depend on the running total. -/
lemma get_card_value_non_ace (c : Card) (h : ¬ c.rank = Rank.ace) (v : ℕ) :
    get_card_value c v = get_card_value c 0 := by
  obtain ⟨r, s⟩ := c
  cases r <;> first | exact absurd rfl h | rfl

/-- The first loop of `get_hand_value` computes the sum of the non-ace card
values and the number of aces, independently of the order of the cards. -/
lemma first_pass_foldl (l : List Card) (v a : ℕ) :
    (l.foldl
      (fun va card =>
        if card.rank = Rank.ace then (va.1, va.2 + 1)
        else (va.1 + get_card_value card va.1, va.2))
      (v, a)) =
      (v + (l.map fun c =>
              if c.rank = Rank.ace then 0 else get_card_value c 0).sum,
       a + (l.map fun c => if c.rank = Rank.ace then 1 else 0).sum) := by
  induction l generalizing v a with
  | nil => simp
  | cons c l ih =>
    by_cases hc : c.rank = Rank.ace
    · simp only [List.foldl_cons, List.map_cons, List.sum_cons, if_pos hc, ih,
        Prod.mk.injEq]
      omega
    · simp only [List.foldl_cons, List.map_cons, List.sum_cons, if_neg hc, ih,
        get_card_value_non_ace c hc, Prod.mk.injEq]
      omega

/-- C4: `get_hand_value` is invariant under permutation of the hand: the
non-ace values are summed first and every ace is resolved against the fully
accumulated total, so deal order never matters. -/
theorem hand_value_perm_invariant (l₁ l₂ : List Card) (h : l₁.Perm l₂) :
    get_hand_value l₁ = get_hand_value l₂ := by
  have h1 : first_pass l₁ = first_pass l₂ := by
    unfold first_pass
    rw [first_pass_foldl, first_pass_foldl,
      (h.map fun c =>
        if c.rank = Rank.ace then 0 else get_card_value c 0).sum_eq,
      (h.map fun c => if c.rank = Rank.ace then 1 else 0).sum_eq]
  unfold get_hand_value
  rw [h1]

/-- Witness for C4 on a concrete two-card reordering. -/
theorem hand_value_perm_invariant_witness :
    ([⟨.ace, .spades⟩, ⟨.nine, .hearts⟩] : List Card).Perm
        [⟨.nine, .hearts⟩, ⟨.ace, .spades⟩] ∧
    get_hand_value [⟨.ace, .spades⟩, ⟨.nine, .hearts⟩] =
      get_hand_value [⟨.nine, .hearts⟩, ⟨.ace, .spades⟩] :=
  ⟨by decide, hand_value_perm_invariant _ _ (by decide)⟩

/-- Splitting one deck copy off the unshuffled shoe. -/
lemma unshuffled_shoe_succ (n : ℕ) :
    unshuffled_shoe (n + 1) = unshuffled_shoe n ++ unshuffled_shoe 1 := by
  simp [unshuffled_shoe, List.range_succ]

/-- Every (rank, suit) pair occurs exactly once per deck copy. -/
lemma count_unshuffled_one (c : Card) : (unshuffled_shoe 1).count c = 1 := by
  revert c
  decide

/-- Every (rank, suit) pair occurs exactly `n` times in `n` deck copies. -/
lemma count_unshuffled (n : ℕ) (c : Card) : (unshuffled_shoe n).count c = n := by
  induction n with
  | zero => simp [unshuffled_shoe]
  | succ n ih =>
    rw [unshuffled_shoe_succ, List.count_append, ih, count_unshuffled_one]

/-- The unshuffled shoe of `n` decks holds `n * 52` cards. -/
lemma length_unshuffled (n : ℕ) : (unshuffled_shoe n).length = n * 52 := by
  induction n with
  | zero => simp [unshuffled_shoe]
  | succ n ih =>
    have h1 : (unshuffled_shoe 1).length = 52 := by decide
    rw [unshuffled_shoe_succ, List.length_append, ih, h1]
    ring

/-- A rotation cut permutes the deck. -/
lemma drop_take_perm (l : List Card) (i : ℕ) : (l.drop i ++ l.take i).Perm l :=
  List.perm_append_comm.trans (by rw [List.take_append_drop])

/-- `create_deck` permutes the unshuffled shoe, provided the shuffle does. -/
lemma create_deck_perm (n : ℕ) (shuffle : List Card → List Card) (cut_depth : ℕ)
    (hs : (shuffle (unshuffled_shoe n)).Perm (unshuffled_shoe n)) :
    (create_deck n shuffle cut_depth).Perm (unshuffled_shoe n) := by
  unfold create_deck
  exact (drop_take_perm _ _).trans hs

/-- C8: for every `num_decks ≥ 1`, a freshly constructed shoe holds exactly
`num_decks * 52` cards with each (rank, suit) pair appearing exactly
`num_decks` times; the random cut is a rotation and preserves the
multiset. -/
theorem create_deck_card_counts (num_decks : ℕ) (shuffle : List Card → List Card)
    (cut_depth : ℕ) (hn : 1 ≤ num_decks)
    (hs : (shuffle (unshuffled_shoe num_decks)).Perm (unshuffled_shoe num_decks)) :
    (create_deck num_decks shuffle cut_depth).length = num_decks * 52 ∧
    ∀ c : Card, (create_deck num_decks shuffle cut_depth).count c = num_decks := by
  have hp := create_deck_perm num_decks shuffle cut_depth hs
  exact ⟨hp.length_eq.trans (length_unshuffled num_decks),
    fun c => (hp.count_eq c).trans (count_unshuffled num_decks c)⟩

/-- Witness for C8 with the production 8 decks and the identity shuffle:
416 cards, each pair appearing 8 times. -/
theorem create_deck_card_counts_witness :
    (1 : ℕ) ≤ 8 ∧
    (create_deck 8 id 70).length = 8 * 52 ∧
    ∀ c : Card, (create_deck 8 id 70).count c = 8 :=
  ⟨by decide, create_deck_card_counts 8 id 70 (by decide) (List.Perm.refl _)⟩

/-- C7: before every single-card draw, a shoe below 60 cards is discarded
wholesale and replaced by a fresh full 8-deck shoe and the draw reports the
reshuffle (`rest ++ [card]` is exactly the fresh shoe of `8 * 52` cards); a
shoe of 60 or more cards is unchanged except for the one drawn card. -/
theorem draw_from_shoe_replenish (shuffle : List Card → List Card)
    (cut_depth : ℕ) (deck : List Card)
    (hs : (shuffle (unshuffled_shoe 8)).Perm (unshuffled_shoe 8)) :
    (deck.length < 60 →
       ∃ card rest, draw_from_shoe shuffle cut_depth deck = some (card, rest, true) ∧
         rest ++ [card] = create_deck 8 shuffle cut_depth ∧
         (rest ++ [card]).length = 8 * 52) ∧
    (60 ≤ deck.length →
       ∃ card rest, draw_from_shoe shuffle cut_depth deck = some (card, rest, false) ∧
         rest ++ [card] = deck) := by
  constructor
  · intro hlt
    have hlen : (create_deck 8 shuffle cut_depth).length = 8 * 52 :=
      (create_deck_perm 8 shuffle cut_depth hs).length_eq.trans
        (length_unshuffled 8)
    obtain hnil | ⟨l, a, heq⟩ := (create_deck 8 shuffle cut_depth).eq_nil_or_concat
    · rw [hnil] at hlen
      simp at hlen
    · rw [List.concat_eq_append] at heq
      refine ⟨a, l, ?_, heq.symm, ?_⟩
      · simp only [draw_from_shoe, ensure_deck_cards, draw_card]
        rw [if_pos hlt, heq]
        simp
      · rw [← heq]
        exact hlen
  · intro hge
    obtain hnil | ⟨l, a, heq⟩ := deck.eq_nil_or_concat
    · rw [hnil] at hge
      simp at hge
    · rw [List.concat_eq_append] at heq
      subst heq
      refine ⟨a, l, ?_, rfl⟩
      simp only [draw_from_shoe, ensure_deck_cards, draw_card]
      rw [if_neg (by omega)]
      simp

/-- Witness for C7 on an empty shoe with the identity shuffle: the draw is
served from a fresh full shoe and reports the reshuffle. -/
theorem draw_from_shoe_replenish_witness :
    ([] : List Card).length < 60 ∧
    ∃ card rest, draw_from_shoe id 70 [] = some (card, rest, true) ∧
      rest ++ [card] = create_deck 8 id 70 ∧
      (rest ++ [card]).length = 8 * 52 :=
  ⟨by decide, (draw_from_shoe_replenish id 70 [] (List.Perm.refl _)).1 (by decide)⟩

/-- Whenever the dealer loop returns, the final status is `stand` with a
value in [17, 21] or `bust` with a value above 21. -/
lemma dealer_turn_terminal (shuffle : List Card → List Card) (cut_depth : ℕ) :
    ∀ (fuel : ℕ) (dealer : Player) (deck : List Card) (final : Player)
      (deck2 : List Card),
      play_dealer_turn shuffle cut_depth fuel dealer deck = some (final, deck2) →
      (final.status = some .stand ∧ 17 ≤ final.cardvalue ∧ final.cardvalue ≤ 21) ∨
      (final.status = some .bust ∧ 21 < final.cardvalue) := by
  intro fuel
  induction fuel with
  | zero =>
    intro dealer deck final deck2 h
    simp [play_dealer_turn] at h
  | succ fuel ih =>
    intro dealer deck final deck2 h
    rw [play_dealer_turn] at h
    split at h
    next hv =>
      rw [Option.some.injEq, Prod.mk.injEq] at h
      obtain ⟨hf, -⟩ := h
      subst hf
      exact Or.inl ⟨rfl, hv⟩
    next =>
      split at h
      next hv =>
        rw [Option.some.injEq, Prod.mk.injEq] at h
        obtain ⟨hf, -⟩ := h
        subst hf
        exact Or.inr ⟨rfl, hv⟩
      next =>
        split at h
        next => exact Option.noConfusion h
        next => exact ih _ _ _ _ h

/-- C5: the dealer policy is deterministic: stand (terminal, no draw) exactly
on values in [17, 21], bust (terminal, no draw) exactly on values above 21,
and otherwise draw one card and re-evaluate; every returned final state is
`stand` in [17, 21] or `bust` above 21. -/
theorem dealer_policy (shuffle : List Card → List Card) (cut_depth : ℕ)
    (fuel : ℕ) (dealer : Player) (deck : List Card) :
    (17 ≤ dealer.cardvalue ∧ dealer.cardvalue ≤ 21 →
       play_dealer_turn shuffle cut_depth (fuel + 1) dealer deck =
         some ({dealer with status := some .stand}, deck)) ∧
    (21 < dealer.cardvalue →
       play_dealer_turn shuffle cut_depth (fuel + 1) dealer deck =
         some ({dealer with status := some .bust}, deck)) ∧
    (dealer.cardvalue ≤ 16 →
       play_dealer_turn shuffle cut_depth (fuel + 1) dealer deck =
         match draw_from_shoe shuffle cut_depth deck with
         | none => none
         | some (card, deck2, _) =>
           play_dealer_turn shuffle cut_depth fuel
             {dealer with hand := dealer.hand ++ [card],
                          cardvalue := get_hand_value (dealer.hand ++ [card]),
                          status := some .hit} deck2) ∧
    (∀ (final : Player) (deck2 : List Card),
       play_dealer_turn shuffle cut_depth fuel dealer deck = some (final, deck2) →
       (final.status = some .stand ∧ 17 ≤ final.cardvalue ∧ final.cardvalue ≤ 21) ∨
       (final.status = some .bust ∧ 21 < final.cardvalue)) := by
  refine ⟨?_, ?_, ?_, dealer_turn_terminal shuffle cut_depth fuel dealer deck⟩
  · intro hv
    rw [play_dealer_turn, if_pos hv]
  · intro hv
    rw [play_dealer_turn, if_neg (by omega), if_pos hv]
  · intro hv
    rw [play_dealer_turn, if_neg (by omega), if_neg (by omega)]

/-- Witness for C5: a dealer holding 18 stands without drawing. -/
theorem dealer_policy_witness :
    ((17 : ℕ) ≤ 18 ∧ (18 : ℕ) ≤ 21) ∧
    play_dealer_turn id 70 1 ⟨"Dealer", 0, 0, [], 18, false, none⟩ [] =
      some ({(⟨"Dealer", 0, 0, [], 18, false, none⟩ : Player) with
              status := some .stand}, []) :=
  ⟨by decide,
   (dealer_policy id 70 0 ⟨"Dealer", 0, 0, [], 18, false, none⟩ []).1
     (by decide)⟩

/-- The two ways the `(D)ouble` branch of `play_player_turn` can go: a
covered double draws once and terminates with the bet moved; an uncovered
double re-prompts on the remaining actions. -/
lemma play_player_turn_double (shuffle : List Card → List Card) (cut_depth : ℕ)
    (p : Player) (deck : List Card) (action : String) (rest : List String)
    (hv : p.cardvalue < 21) (ha : str_lower action = "d") :
    (∀ (card : Card) (deck2 : List Card) (reshuffled : Bool),
       p.bet ≤ p.chips →
       draw_from_shoe shuffle cut_depth deck = some (card, deck2, reshuffled) →
       play_player_turn shuffle cut_depth p deck (action :: rest) =
         some ({p with hand := p.hand ++ [card],
                       cardvalue := get_hand_value (p.hand ++ [card]),
                       chips := p.chips - p.bet,
                       bet := p.bet * 2,
                       doubled := true,
                       status := some .double}, deck2)) ∧
    (p.chips < p.bet →
       play_player_turn shuffle cut_depth p deck (action :: rest) =
         play_player_turn shuffle cut_depth {p with doubled := false} deck rest) := by
  have h21 : ¬ p.cardvalue = 21 := by omega
  have hgt : ¬ 21 < p.cardvalue := by omega
  have hnh : ¬ str_lower action = "h" := by rw [ha]; decide
  constructor
  · intro card deck2 reshuffled hbet hdraw
    rw [play_player_turn, if_neg h21, if_neg hgt]
    dsimp only
    rw [if_neg hnh, if_pos ha, if_pos hbet, hdraw]
  · intro hchips
    rw [play_player_turn, if_neg h21, if_neg hgt]
    dsimp only
    rw [if_neg hnh, if_pos ha, if_neg (by exact not_le.mpr hchips)]

/-- C3: during an active turn (value below 21), Double is legal iff
`bet ≤ chips`; a legal double draws exactly one card, deducts the bet from
chips, doubles the bet, sets `doubled`, and terminates with status `double`
regardless of the resulting value; an illegal double re-prompts with chips,
bet, hand and status unchanged.  Concretely, doubling on [5♠, 6♥] with bet
20 and chips 100 then beating the dealer ends with chips 160. -/
theorem double_down_rules (shuffle : List Card → List Card) (cut_depth : ℕ)
    (p : Player) (deck : List Card) (action : String) (rest : List String)
    (hv : p.cardvalue < 21) (ha : str_lower action = "d") :
    (∀ (card : Card) (deck2 : List Card) (reshuffled : Bool),
       p.bet ≤ p.chips →
       draw_from_shoe shuffle cut_depth deck = some (card, deck2, reshuffled) →
       play_player_turn shuffle cut_depth p deck (action :: rest) =
         some ({p with hand := p.hand ++ [card],
                       cardvalue := get_hand_value (p.hand ++ [card]),
                       chips := p.chips - p.bet,
                       bet := p.bet * 2,
                       doubled := true,
                       status := some .double}, deck2)) ∧
    (p.chips < p.bet →
       play_player_turn shuffle cut_depth p deck (action :: rest) =
         play_player_turn shuffle cut_depth {p with doubled := false} deck rest ∧
       ({p with doubled := false} : Player).chips = p.chips ∧
       ({p with doubled := false} : Player).bet = p.bet ∧
       ({p with doubled := false} : Player).hand = p.hand ∧
       ({p with doubled := false} : Player).status = p.status) ∧
    (play_player_turn id 0
        ⟨"P", 100, 20, [⟨.five, .spades⟩, ⟨.six, .hearts⟩], 11, false, none⟩
        (List.replicate 59 ⟨.two, .clubs⟩ ++ [⟨.nine, .diamonds⟩]) ["d"] =
       some (⟨"P", 80, 40,
              [⟨.five, .spades⟩, ⟨.six, .hearts⟩, ⟨.nine, .diamonds⟩], 20, true,
              some .double⟩, List.replicate 59 ⟨.two, .clubs⟩) ∧
     (evaluate_hand
        ⟨"P", 80, 40, [⟨.five, .spades⟩, ⟨.six, .hearts⟩, ⟨.nine, .diamonds⟩],
         20, true, some .double⟩
        ⟨"Dealer", 0, 0, [], 18, false, some .stand⟩).chips = 160) := by
  refine ⟨(play_player_turn_double shuffle cut_depth p deck action rest hv ha).1,
    fun hchips =>
      ⟨(play_player_turn_double shuffle cut_depth p deck action rest hv ha).2 hchips,
       rfl, rfl, rfl, rfl⟩, ?_, ?_⟩
  · have hdraw : draw_from_shoe id 0
        (List.replicate 59 (⟨.two, .clubs⟩ : Card) ++ [⟨.nine, .diamonds⟩]) =
        some (⟨.nine, .diamonds⟩, List.replicate 59 ⟨.two, .clubs⟩, false) := by
      simp only [draw_from_shoe, ensure_deck_cards, draw_card]
      rw [if_neg (by simp)]
      simp
    have hsc := (play_player_turn_double id 0
        ⟨"P", 100, 20, [⟨.five, .spades⟩, ⟨.six, .hearts⟩], 11, false, none⟩
        (List.replicate 59 ⟨.two, .clubs⟩ ++ [⟨.nine, .diamonds⟩]) "d" []
        (by decide) (by decide)).1
      ⟨.nine, .diamonds⟩ (List.replicate 59 ⟨.two, .clubs⟩) false
      (by norm_num) hdraw
    refine hsc.trans ?_
    have hhv : get_hand_value
        ([⟨.five, .spades⟩, ⟨.six, .hearts⟩] ++ [⟨.nine, .diamonds⟩]) = 20 := by
      decide
    simp only [Option.some.injEq, Prod.mk.injEq, Player.mk.injEq, hhv]
    norm_num
  · rw [evaluate_hand, if_neg (by decide), if_neg (by decide),
      if_neg (by decide), if_pos ⟨by decide, rfl⟩]
    norm_num

/-- Witness for C3: the legal-double branch evaluated at the concrete
scenario of the claim. -/
theorem double_down_rules_witness :
    ((11 : ℕ) < 21 ∧ str_lower "d" = "d" ∧ (20 : ℚ) ≤ 100 ∧
      draw_from_shoe id 0
          (List.replicate 59 (⟨.two, .clubs⟩ : Card) ++ [⟨.nine, .diamonds⟩]) =
        some (⟨.nine, .diamonds⟩, List.replicate 59 ⟨.two, .clubs⟩, false)) ∧
    play_player_turn id 0
        ⟨"P", 100, 20, [⟨.five, .spades⟩, ⟨.six, .hearts⟩], 11, false, none⟩
        (List.replicate 59 ⟨.two, .clubs⟩ ++ [⟨.nine, .diamonds⟩]) ["d"] =
      some ({(⟨"P", 100, 20, [⟨.five, .spades⟩, ⟨.six, .hearts⟩], 11, false,
               none⟩ : Player) with
              hand := [⟨.five, .spades⟩, ⟨.six, .hearts⟩] ++ [⟨.nine, .diamonds⟩],
              cardvalue := get_hand_value
                ([⟨.five, .spades⟩, ⟨.six, .hearts⟩] ++ [⟨.nine, .diamonds⟩]),
              chips := 100 - 20,
              bet := 20 * 2,
              doubled := true,
              status := some .double}, List.replicate 59 ⟨.two, .clubs⟩) :=
  ⟨⟨by decide, by decide, by decide, by decide⟩,
   (double_down_rules id 0
       ⟨"P", 100, 20, [⟨.five, .spades⟩, ⟨.six, .hearts⟩], 11, false, none⟩
       (List.replicate 59 ⟨.two, .clubs⟩ ++ [⟨.nine, .diamonds⟩]) "d" []
       (by decide) (by decide)).1
     ⟨.nine, .diamonds⟩ (List.replicate 59 ⟨.two, .clubs⟩) false
     (by decide) (by decide)⟩

/-- C1 counterexample: the player turn engine classifies a THREE-card hand
of value 21 (reached by hitting) as status `blackjack` — the loop head tests
only `cardvalue == 21`, never the card count. -/
theorem player_turn_three_card_21_is_blackjack :
    ([⟨.ten, .spades⟩, ⟨.five, .hearts⟩, ⟨.six, .diamonds⟩] : List Card).length = 3 ∧
    get_hand_value [⟨.ten, .spades⟩, ⟨.five, .hearts⟩, ⟨.six, .diamonds⟩] = 21 ∧
    play_player_turn id 0
        ⟨"P", 100, 10, [⟨.ten, .spades⟩, ⟨.five, .hearts⟩, ⟨.six, .diamonds⟩],
         21, false, some .hit⟩ [] [] =
      some (⟨"P", 100, 10,
             [⟨.ten, .spades⟩, ⟨.five, .hearts⟩, ⟨.six, .diamonds⟩], 21, false,
             some .blackjack⟩, []) := by
  decide

/-- C1 (amended): the player turn engine gives status `blackjack` to ANY
hand of value 21 regardless of card count; the dealer turn engine gives a
value-21 hand status `stand`, never `blackjack`; only the outcome resolver
`evaluate_hand` restricts status `blackjack` to a two-card 21. -/
theorem turn_engine_21_classification :
    (∀ (shuffle : List Card → List Card) (cut_depth : ℕ) (p : Player)
       (deck : List Card) (actions : List String),
       p.cardvalue = 21 →
       play_player_turn shuffle cut_depth p deck actions =
         some ({p with status := some .blackjack}, deck)) ∧
    (∀ (shuffle : List Card → List Card) (cut_depth : ℕ) (fuel : ℕ)
       (d : Player) (deck : List Card),
       d.cardvalue = 21 →
       play_dealer_turn shuffle cut_depth (fuel + 1) d deck =
         some ({d with status := some .stand}, deck)) ∧
    (∀ p d : Player, (evaluate_hand p d).status = some .blackjack →
       p.hand.length = 2 ∧ p.cardvalue = 21) := by
  refine ⟨?_, ?_, ?_⟩
  · intro shuffle cut_depth p deck actions h
    rw [play_player_turn.eq_def]
    dsimp only
    rw [if_pos h]
  · intro shuffle cut_depth fuel d deck h
    rw [play_dealer_turn, if_pos (by omega)]
  · intro p d h
    rw [evaluate_hand] at h
    split at h
    next => simp at h
    next hc1 =>
      split at h
      next => simp at h
      next hc2 =>
        split at h
        next hc3 => exact ⟨hc3.2, hc3.1⟩
        next hc3 =>
          split at h
          next => simp at h
          next hc4 =>
            split at h
            next => simp at h
            next hc5 =>
              split at h
              next => simp at h
              next hc6 => omega

/-- Witness for the amended C1: a two-card 21 at the head of the player
loop is classified `blackjack`. -/
theorem turn_engine_21_classification_witness :
    ((⟨"P", 50, 5, [⟨.ace, .spades⟩, ⟨.king, .hearts⟩], 21, false, none⟩ :
        Player).cardvalue = 21) ∧
    play_player_turn id 0
        ⟨"P", 50, 5, [⟨.ace, .spades⟩, ⟨.king, .hearts⟩], 21, false, none⟩ [] [] =
      some ({(⟨"P", 50, 5, [⟨.ace, .spades⟩, ⟨.king, .hearts⟩], 21, false,
               none⟩ : Player) with status := some .blackjack}, []) :=
  ⟨rfl,
   turn_engine_21_classification.1 id 0
     ⟨"P", 50, 5, [⟨.ace, .spades⟩, ⟨.king, .hearts⟩], 21, false, none⟩ [] []
     rfl⟩

end Blackjack
